import Mathlib

/-!
Shallow embedding of `src/password_checker.py` (a password strength
checker).  Python strings are modelled as `List Char`; Python ints as
`Nat`/`Int`.  The common-password set is modelled as a list of strings,
since only membership is ever queried; `None` versus a supplied set is an
`Option`.  The entropy value the code returns is an integer (Python
multiplies two ints; the `0.0` branch is the integer `0`), so it is
modelled as a `Nat`.
-/

namespace PasswordChecker

/-- Characters of a Python `str`, modelled as a list of Unicode code points. -/
abbrev PyStr := List Char

/-- Does the character match the regex class `[a-z]` (ASCII lowercase)? -/
def isLowerChar (c : Char) : Bool := 97 ≤ c.toNat && c.toNat ≤ 122

/-- Does the character match the regex class `[A-Z]` (ASCII uppercase)? -/
def isUpperChar (c : Char) : Bool := 65 ≤ c.toNat && c.toNat ≤ 90

/-- Does the character match the regex class `[0-9]` (ASCII digit)? -/
def isDigitChar (c : Char) : Bool := 48 ≤ c.toNat && c.toNat ≤ 57

/-- Does the character match `[a-zA-Z0-9]`? -/
def isAlnumChar (c : Char) : Bool := isLowerChar c || isUpperChar c || isDigitChar c

/-- The check `re.search(r'[a-z]', password)` of lines 8 and 58. -/
def hasLower (pw : PyStr) : Bool := pw.any isLowerChar

/-- The check `re.search(r'[A-Z]', password)` of lines 10 and 59. -/
def hasUpper (pw : PyStr) : Bool := pw.any isUpperChar

/-- The check `re.search(r'[0-9]', password)` of lines 12 and 60. -/
def hasDigit (pw : PyStr) : Bool := pw.any isDigitChar

/-- The check `re.search(r'[^a-zA-Z0-9]', password)` of lines 14 and 61:
any character outside the three alphanumeric classes counts. -/
def hasSymbol (pw : PyStr) : Bool := pw.any (fun c => !isAlnumChar c)

/-- Python `int.bit_length`, computed with an explicit fuel argument so that
it is structurally recursive (the fuel `n` always suffices, since the number
of binary digits of `n` never exceeds `n`). -/
def bitLenAux : Nat → Nat → Nat
  | 0, _ => 0
  | fuel + 1, n => if n = 0 then 0 else bitLenAux fuel (n / 2) + 1

/-- Python `charset.bit_length()` (line 18): the number of binary digits of
`n`, which is `0` for `n = 0` and `Nat.log2 n + 1` otherwise. -/
def bit_length (n : Nat) : Nat := bitLenAux n n

/-- The accumulated `charset` variable of `entropy_bits` (lines 7–15). -/
def charsetSize (pw : PyStr) : Nat :=
  (if hasLower pw then 26 else 0) + (if hasUpper pw then 26 else 0) +
    (if hasDigit pw then 10 else 0) + (if hasSymbol pw then 32 else 0)

/-- The function `entropy_bits` (lines 5–18).  Its Python value is the
integer `len(password) * charset.bit_length()` (or the float `0.0` when no
class is present, modelled as the integer `0`). -/
def entropy_bits (pw : PyStr) : Nat :=
  if charsetSize pw = 0 then 0 else pw.length * bit_length (charsetSize pw)

/-- Python `seq * k` for a string `seq`: `k` concatenated copies. -/
def strTimes (seq : PyStr) (k : Nat) : PyStr := (List.replicate k seq).flatten

/-- The loop of `repeated_sequence_score` (lines 22–25): some unit length
`i` in `range(1, len(password)//2 + 1)` has `password[:i] * (len(password)//i)`
equal to the password. -/
def wholeRepeat (pw : PyStr) : Bool :=
  (List.range' 1 (pw.length / 2)).any fun i =>
    strTimes (pw.take i) (pw.length / i) == pw

/-- The check `re.search(r'(.)\1{2,}', password)` of line 26: three equal
consecutive characters.  The regex `.` does not match a newline, so a run
of newline characters is not found. -/
def hasRun3 : PyStr → Bool
  | a :: b :: c :: rest =>
      ((a != '\n') && (a == b) && (b == c)) || hasRun3 (b :: c :: rest)
  | _ => false

/-- The function `repeated_sequence_score` (lines 20–28). -/
def repeated_sequence_score (pw : PyStr) : Nat :=
  if wholeRepeat pw then 1 else if hasRun3 pw then 1 else 0

/-- Python `str.lower()`, character by character (the passwords and patterns
involved are ASCII, where `Char.toLower` agrees with Python). -/
def pyLower (s : PyStr) : PyStr := s.map Char.toLower

/-- Does `s` begin with `pat` (helper for Python's `in` on strings)? -/
def beginsWith : PyStr → PyStr → Bool
  | [], _ => true
  | _ :: _, [] => false
  | p :: ps, c :: cs => (p == c) && beginsWith ps cs

/-- Python `pat in s` for strings: `pat` occurs contiguously inside `s`. -/
def occursIn (pat : PyStr) : PyStr → Bool
  | [] => pat.isEmpty
  | c :: cs => beginsWith pat (c :: cs) || occursIn pat cs

/-- The pattern list of `keyboard_pattern_score` (line 32). -/
def keyboard_patterns : List PyStr :=
  ["qwerty".data, "asdf".data, "zxcv".data, "12345".data, "password".data]

/-- The function `keyboard_pattern_score` (lines 30–36): 1 when some fixed
pattern occurs in the lowercased password, else 0. -/
def keyboard_pattern_score (pw : PyStr) : Nat :=
  if keyboard_patterns.any (fun pat => occursIn pat (pyLower pw)) then 1 else 0

/-- The function `is_common_password` (lines 38–39). -/
def is_common_password (pw : PyStr) (common_set : List PyStr) : Bool :=
  common_set.contains pw || common_set.contains (pyLower pw)

/-- Python `str.strip()`: leading and trailing whitespace removed. -/
def pyStrip (l : PyStr) : PyStr :=
  ((l.dropWhile Char.isWhitespace).reverse.dropWhile Char.isWhitespace).reverse

/-- The per-line loop of `load_common_passwords` (lines 45–50), with the
file abstracted to its list of lines: every non-empty stripped line is added
together with its lowercase form.  The set is modelled as a list queried
only through membership. -/
def load_common_passwords (lines : List PyStr) : List PyStr :=
  lines.foldl
    (fun s line =>
      let t := pyStrip line
      if t.isEmpty then s else pyLower t :: t :: s)
    []

/-- The report dictionary returned by `grade_password` (lines 108–116).
`entropy_bits` is the exact integer value (Python's `round(ent, 2)` of an
integer is that integer). -/
structure Report where
  password : PyStr
  length : Nat
  entropy_bits : Nat
  score_metric : Int
  strength : String
  issues : List String
  suggestions : List String
deriving DecidableEq

/-- The test `if common_set and is_common_password(pw, common_set)` of
line 87: `None` and the empty set are falsy. -/
def dict_hit (pw : PyStr) (common_set : Option (List PyStr)) : Bool :=
  match common_set with
  | none => false
  | some s => !s.isEmpty && is_common_password pw s

/-- The function `grade_password` (lines 55–116).  The sequential score
mutations and issue appends are written as one sum and one concatenation,
in the source's order. -/
def grade_password (pw : PyStr) (common_set : Option (List PyStr)) : Report :=
  let ent := entropy_bits pw
  let length := pw.length
  let has_lower := hasLower pw
  let has_upper := hasUpper pw
  let has_digit := hasDigit pw
  let has_symbol := hasSymbol pw
  let rep := repeated_sequence_score pw
  let keypat := keyboard_pattern_score pw
  let hit := dict_hit pw common_set
  let score : Int :=
    (if length < 8 then 0 else 1) +
      (if has_lower then 1 else 0) +
      (if has_upper then 1 else 0) +
      (if has_digit then 1 else 0) +
      (if has_symbol then 1 else 0) -
      ((rep : Int) + (keypat : Int)) -
      (if hit then 5 else 0)
  let issues : List String :=
    (if length < 8 then ["Password length is short (< 8)."] else []) ++
      (if has_lower then [] else ["Add lowercase letters (a-z)."]) ++
      (if has_upper then [] else ["Add uppercase letters (A-Z)."]) ++
      (if has_digit then [] else ["Add digits (0-9)."]) ++
      (if has_symbol then [] else ["Add symbols or punctuation (e.g. !@#)."]) ++
      (if rep ≠ 0 then ["Repeated characters or patterns in password."] else []) ++
      (if keypat ≠ 0 then ["Contains a known keyboard pattern (e.g. qwerty or 12345)."] else []) ++
      (if hit then ["Password is found in the common passwords list — change it immediately!"] else [])
  let strength : String :=
    if ent ≥ 60 ∧ score ≥ 3 then "Very strong"
    else if ent ≥ 45 ∧ score ≥ 1 then "Strong"
    else if ent ≥ 28 then "Medium"
    else "Weak"
  let suggestions : List String :=
    (if length < 12 then ["Make the password 12 characters or longer for better security."] else []) ++
      ["Use a long passphrase instead of a short password.",
       "Combine uppercase, lowercase, digits, and symbols.",
       "Avoid known words or keyboard patterns.",
       "Use a password manager to generate and store strong, unique passwords for each site."]
  ⟨pw, length, ent, score, strength, issues, suggestions⟩

/-! Definitions stated from the spec's words, used to compare the embedded
code against the specification. -/

/-- The strength-label decision table of the spec, first matching branch
wins: entropy ≥ 60 and score ≥ 3, else entropy ≥ 45 and score ≥ 1, else
entropy ≥ 28, else weak. -/
def strengthLabel (ent : Nat) (score : Int) : String :=
  if ent ≥ 60 ∧ score ≥ 3 then "Very strong"
  else if ent ≥ 45 ∧ score ≥ 1 then "Strong"
  else if ent ≥ 28 then "Medium"
  else "Weak"

/-- Stated from the spec: the pattern occurs contiguously somewhere inside
the string. -/
def OccursAsSub (pat s : PyStr) : Prop := ∃ l r, s = l ++ pat ++ r

/-- Stated from the spec: some candidate unit length `i` from 1 to half the
length has the first `i` characters, repeated, reconstruct the password. -/
def WholeRepetition (pw : PyStr) : Prop :=
  ∃ i, 1 ≤ i ∧ i ≤ pw.length / 2 ∧ strTimes (pw.take i) (pw.length / i) = pw

/-- Stated from the spec's words: a visible character, taken as one that is
not whitespace, not an ASCII control character and not DEL. -/
def isVisibleChar (c : Char) : Bool :=
  33 ≤ c.toNat && c.toNat != 127 && !c.isWhitespace

/-! Helper lemmas. -/

/-- With enough fuel, `bitLenAux` computes the number of binary digits. -/
theorem bitLenAux_eq (fuel : Nat) : ∀ n, n ≤ fuel →
    bitLenAux fuel n = if n = 0 then 0 else Nat.log2 n + 1 := by
  induction fuel with
  | zero => intro n h; simp [Nat.le_zero.mp h, bitLenAux]
  | succ fuel ih =>
    intro n h
    by_cases h0 : n = 0
    · simp [h0, bitLenAux]
    · have h2 : n / 2 ≤ fuel := by omega
      rw [show bitLenAux (fuel + 1) n = if n = 0 then 0 else bitLenAux fuel (n / 2) + 1 from rfl,
        if_neg h0, if_neg h0, ih (n / 2) h2]
      by_cases h1 : n / 2 = 0
      · have : n = 1 := by omega
        subst this
        simp [Nat.log2]
      · have hn2 : 2 ≤ n := by omega
        rw [if_neg h1]
        conv_rhs => rw [Nat.log2]
        simp [hn2]

/-- The number of binary digits of `n`, in closed form. -/
theorem bit_length_eq (n : Nat) :
    bit_length n = if n = 0 then 0 else Nat.log2 n + 1 :=
  bitLenAux_eq n n le_rfl

/-- The score field of the report, in closed form. -/
theorem score_metric_eq (pw : PyStr) (c : Option (List PyStr)) :
    (grade_password pw c).score_metric =
      (if pw.length < 8 then 0 else 1) + (if hasLower pw then 1 else 0) +
        (if hasUpper pw then 1 else 0) + (if hasDigit pw then 1 else 0) +
        (if hasSymbol pw then 1 else 0) -
        ((repeated_sequence_score pw : Int) + (keyboard_pattern_score pw : Int)) -
        (if dict_hit pw c then 5 else 0) := rfl

/-- `beginsWith` decides "the string starts with the pattern". -/
theorem beginsWith_iff (pat : PyStr) : ∀ s, beginsWith pat s = true ↔ ∃ r, s = pat ++ r := by
  induction pat with
  | nil => intro s; simp [beginsWith]
  | cons p ps ih =>
    intro s
    cases s with
    | nil => simp [beginsWith]
    | cons c cs =>
      simp only [beginsWith, Bool.and_eq_true, beq_iff_eq, ih cs, List.cons_append]
      constructor
      · rintro ⟨hpc, r, hr⟩
        exact ⟨r, by rw [hpc, hr]⟩
      · rintro ⟨r, h⟩
        injection h with h1 h2
        exact ⟨h1.symm, r, h2⟩

/-- `occursIn` decides "the pattern occurs contiguously inside the string". -/
theorem occursIn_iff (pat : PyStr) : ∀ s, occursIn pat s = true ↔ OccursAsSub pat s := by
  unfold OccursAsSub
  intro s
  induction s with
  | nil =>
    simp only [occursIn, List.isEmpty_iff]
    constructor
    · rintro rfl; exact ⟨[], [], rfl⟩
    · rintro ⟨l, r, h⟩
      rcases List.append_eq_nil.mp h.symm with ⟨h2, -⟩
      exact (List.append_eq_nil.mp h2).2
  | cons c cs ih =>
    simp only [occursIn, Bool.or_eq_true, beginsWith_iff, ih]
    constructor
    · rintro (⟨r, hr⟩ | ⟨l, r, hr⟩)
      · exact ⟨[], r, by simpa using hr⟩
      · exact ⟨c :: l, r, by simp [hr]⟩
    · rintro ⟨l, r, hr⟩
      cases l with
      | nil => exact Or.inl ⟨r, by simpa using hr⟩
      | cons x xs =>
        injection hr with h1 h2
        exact Or.inr ⟨xs, r, by simpa using h2⟩

/-- The repetition loop decides the spec's whole-string repetition. -/
theorem wholeRepeat_iff (pw : PyStr) : wholeRepeat pw = true ↔ WholeRepetition pw := by
  unfold wholeRepeat WholeRepetition
  rw [List.any_eq_true]
  constructor
  · rintro ⟨i, hmem, hi⟩
    rw [List.mem_range'_1] at hmem
    exact ⟨i, hmem.1, by omega, by simpa using hi⟩
  · rintro ⟨i, h1, h2, h⟩
    exact ⟨i, List.mem_range'_1.mpr ⟨h1, by omega⟩, by simpa using h⟩

/-- Unfolding equation of `hasRun3` at three or more characters. -/
theorem hasRun3_cons (a b c : Char) (rest : PyStr) :
    hasRun3 (a :: b :: c :: rest) =
      (((a != '\n') && (a == b) && (b == c)) || hasRun3 (b :: c :: rest)) := rfl

/-- `hasRun3` decides "a run of three equal characters, none of them a
newline, occurs in the string" (the regex `.` does not match newlines). -/
theorem hasRun3_iff : ∀ pw : PyStr,
    hasRun3 pw = true ↔ ∃ c, c ≠ '\n' ∧ OccursAsSub [c, c, c] pw := by
  intro pw
  induction pw with
  | nil =>
    constructor
    · intro h; exact absurd h (by simp [hasRun3])
    · rintro ⟨c, -, l, r, h⟩
      exact absurd (congrArg List.length h) (by simp; omega)
  | cons a tail ih =>
    cases tail with
    | nil =>
      constructor
      · intro h; exact absurd h (by simp [hasRun3])
      · rintro ⟨c, -, l, r, h⟩
        exact absurd (congrArg List.length h) (by simp; omega)
    | cons b tail2 =>
      cases tail2 with
      | nil =>
        constructor
        · intro h; exact absurd h (by simp [hasRun3])
        · rintro ⟨c, -, l, r, h⟩
          exact absurd (congrArg List.length h) (by simp; omega)
      | cons c rest =>
        rw [hasRun3_cons, Bool.or_eq_true, ih]
        constructor
        · rintro (h | ⟨ch, hne, l, r, hr⟩)
          · simp only [Bool.and_eq_true, bne_iff_ne, beq_iff_eq] at h
            obtain ⟨⟨hna, hab⟩, hbc⟩ := h
            subst hab; subst hbc
            exact ⟨a, hna, [], rest, rfl⟩
          · exact ⟨ch, hne, a :: l, r, by simp [hr]⟩
        · rintro ⟨ch, hne, l, r, hr⟩
          cases l with
          | nil =>
            simp only [List.nil_append, List.cons_append] at hr
            injection hr with e1 hr; injection hr with e2 hr; injection hr with e3 hr
            subst e1; subst e2; subst e3
            exact Or.inl (by simp [hne])
          | cons x xs =>
            injection hr with e1 hr
            exact Or.inr ⟨ch, hne, xs, r, by simpa using hr⟩

/-- The repeated-sequence flag is 0 or 1. -/
theorem repeated_le_one (pw : PyStr) : repeated_sequence_score pw ≤ 1 := by
  unfold repeated_sequence_score; split_ifs <;> omega

/-- The keyboard-pattern flag is 0 or 1. -/
theorem keyboard_le_one (pw : PyStr) : keyboard_pattern_score pw ≤ 1 := by
  unfold keyboard_pattern_score; split_ifs <;> omega

/-- Implication between booleans bounds the matching 0-or-1 terms. -/
theorem if_one_mono {b₁ b₂ : Bool} (h : b₁ = true → b₂ = true) :
    (if b₁ = true then (1 : Int) else 0) ≤ if b₂ = true then 1 else 0 := by
  cases b₁ <;> cases b₂ <;> simp_all

/-! The claims. -/

/-- C1: the entropy estimate equals the password length times the bit length
of the charset size (the sum of the fixed weights 26, 26, 10, 32 for the
classes present), it is 0 when no class is present, `bit_length` is the
number of binary digits, and the password "abcD1!" has charset 94,
bit length 7, length 6 and entropy 42. -/
theorem claim_C1_entropy :
    (∀ pw : PyStr,
      entropy_bits pw = pw.length * bit_length (charsetSize pw) ∧
        (charsetSize pw = 0 → entropy_bits pw = 0)) ∧
    (∀ n : Nat, bit_length n = if n = 0 then 0 else Nat.log2 n + 1) ∧
    charsetSize "abcD1!".data = 94 ∧ bit_length 94 = 7 ∧
    "abcD1!".data.length = 6 ∧ entropy_bits "abcD1!".data = 42 := by
  refine ⟨?_, bit_length_eq, by decide, by decide, by decide, by decide⟩
  intro pw
  constructor
  · unfold entropy_bits
    by_cases h : charsetSize pw = 0
    · simp [h, bit_length, bitLenAux]
    · simp [h]
  · intro h; simp [entropy_bits, h]

/-- C2: the strength label of the report is determined from the report's
entropy and final score by the fixed priority cascade 60/3, 45/1, 28,
first matching branch winning. -/
theorem claim_C2_strength (pw : PyStr) (c : Option (List PyStr)) :
    (grade_password pw c).strength =
      strengthLabel (grade_password pw c).entropy_bits
        (grade_password pw c).score_metric := rfl

/-- C3 counterexample: grading the empty password gives score 0, not the
score -4 the claim states. -/
theorem claim_C3_counterexample :
    (grade_password [] none).score_metric = 0 ∧
      (grade_password [] none).score_metric ≠ -4 := by decide

/-- C3 as amended: grading the empty password (with an absent or empty
common set) gives length 0, entropy 0, all four class issues, both pattern
flags 0, score 0 and strength "Weak". -/
theorem claim_C3_empty_password :
    grade_password [] (some []) = grade_password [] none ∧
    (grade_password [] none).length = 0 ∧
    (grade_password [] none).entropy_bits = 0 ∧
    "Add lowercase letters (a-z)." ∈ (grade_password [] none).issues ∧
    "Add uppercase letters (A-Z)." ∈ (grade_password [] none).issues ∧
    "Add digits (0-9)." ∈ (grade_password [] none).issues ∧
    "Add symbols or punctuation (e.g. !@#)." ∈ (grade_password [] none).issues ∧
    repeated_sequence_score [] = 0 ∧
    keyboard_pattern_score [] = 0 ∧
    (grade_password [] none).score_metric = 0 ∧
    (grade_password [] none).strength = "Weak" := by decide

/-- C4 counterexample: against the set built from the lines "Password1" and
"letmein", the password "PASSWORD1" IS reported common (its lowercased form
"password1" is in the set), where the claim states it is not. -/
theorem claim_C4_counterexample :
    is_common_password "PASSWORD1".data
      (load_common_passwords ["Password1".data, "letmein".data]) = true := by decide

/-- C4 as amended: with the set built from the lines "Password1" and
"letmein", the dictionary check accepts "Password1", "password1" and also
"PASSWORD1" (both the query and the stored entries are lowercased, so any
case variant of a stored word matches), while an absent word is rejected. -/
theorem claim_C4_dictionary :
    is_common_password "Password1".data
      (load_common_passwords ["Password1".data, "letmein".data]) = true ∧
    is_common_password "password1".data
      (load_common_passwords ["Password1".data, "letmein".data]) = true ∧
    is_common_password "PASSWORD1".data
      (load_common_passwords ["Password1".data, "letmein".data]) = true ∧
    is_common_password "letmein".data
      (load_common_passwords ["Password1".data, "letmein".data]) = true ∧
    is_common_password "hunter2".data
      (load_common_passwords ["Password1".data, "letmein".data]) = false := by decide

/-- C5 counterexample: in "a\n\n\nb" the newline character occurs three
times consecutively, yet the repeated-sequence flag is 0 (the regex `.`
does not match newlines), where the claim requires flag 1 for any
character. -/
theorem claim_C5_counterexample :
    repeated_sequence_score "a\n\n\nb".data = 0 ∧
      (∃ c, OccursAsSub [c, c, c] "a\n\n\nb".data) :=
  ⟨by decide, '\n', ['a'], ['b'], by decide⟩

/-- C5 as amended: the repeated-sequence flag is 1 exactly when whole-string
repetition of a unit of length at most half the password holds, or some
single character other than newline occurs three or more times
consecutively; it is 1 on "ababab" and "aaa" and 0 on "abcdef". -/
theorem claim_C5_repetition :
    (∀ pw : PyStr, repeated_sequence_score pw = 1 ↔
      (WholeRepetition pw ∨ ∃ c, c ≠ '\n' ∧ OccursAsSub [c, c, c] pw)) ∧
    repeated_sequence_score "ababab".data = 1 ∧
    repeated_sequence_score "aaa".data = 1 ∧
    repeated_sequence_score "abcdef".data = 0 := by
  refine ⟨?_, by decide, by decide, by decide⟩
  intro pw
  rw [← wholeRepeat_iff, ← hasRun3_iff]
  unfold repeated_sequence_score
  split_ifs with h1 h2
  · simp [h1]
  · simp [h1, h2]
  · simp [h1, h2]

/-- C6 counterexample: the single-space password contains no visible
character at all, yet the classifier's symbol boolean is true, where the
claim restricts the symbol class to visible characters. -/
theorem claim_C6_counterexample :
    hasSymbol " ".data = true ∧
      (" ".data).all (fun c => !isVisibleChar c) = true := by decide

/-- C6 as amended: the classifier returns four independent booleans —
contains a lowercase ASCII letter (97–122), an uppercase ASCII letter
(65–90), an ASCII digit (48–57), and any other character whatsoever
(visible or not, treated as symbol) — and the empty string yields all
four false. -/
theorem claim_C6_classifier :
    (∀ pw : PyStr,
      (hasLower pw = true ↔ ∃ c ∈ pw, 97 ≤ c.toNat ∧ c.toNat ≤ 122) ∧
      (hasUpper pw = true ↔ ∃ c ∈ pw, 65 ≤ c.toNat ∧ c.toNat ≤ 90) ∧
      (hasDigit pw = true ↔ ∃ c ∈ pw, 48 ≤ c.toNat ∧ c.toNat ≤ 57) ∧
      (hasSymbol pw = true ↔ ∃ c ∈ pw, isAlnumChar c = false)) ∧
    hasLower [] = false ∧ hasUpper [] = false ∧ hasDigit [] = false ∧
    hasSymbol [] = false := by
  refine ⟨?_, rfl, rfl, rfl, rfl⟩
  intro pw
  refine ⟨?_, ?_, ?_, ?_⟩ <;>
    simp [hasLower, hasUpper, hasDigit, hasSymbol, List.any_eq_true,
      isLowerChar, isUpperChar, isDigitChar, Bool.and_eq_true, decide_eq_true_eq]

/-- C7: the keyboard-pattern flag is 1 exactly when one of the five fixed
patterns occurs as a contiguous substring of the lowercased password; it is
1 on "MyQwertyPass1!" and 0 on "Xk9#mZ2!qL". -/
theorem claim_C7_keyboard :
    (∀ pw : PyStr, keyboard_pattern_score pw = 1 ↔
      ∃ pat ∈ keyboard_patterns, OccursAsSub pat (pyLower pw)) ∧
    keyboard_pattern_score "MyQwertyPass1!".data = 1 ∧
    keyboard_pattern_score "Xk9#mZ2!qL".data = 0 := by
  refine ⟨?_, by decide, by decide⟩
  intro pw
  have key : (keyboard_patterns.any fun pat => occursIn pat (pyLower pw)) = true ↔
      ∃ pat ∈ keyboard_patterns, OccursAsSub pat (pyLower pw) := by
    rw [List.any_eq_true]
    exact exists_congr fun pat =>
      and_congr_right fun _ => occursIn_iff pat (pyLower pw)
  rw [← key]
  unfold keyboard_pattern_score
  split_ifs with h <;> simp [h]

/-- C8: for two passwords of equal length, graded against the same set,
where the second covers every character class the first covers and both
share the repeated-sequence flag, the keyboard-pattern flag and the
dictionary result, the second's score is at least the first's. -/
theorem claim_C8_monotone (pw₁ pw₂ : PyStr) (c : Option (List PyStr))
    (hlen : pw₁.length = pw₂.length)
    (hl : hasLower pw₁ = true → hasLower pw₂ = true)
    (hu : hasUpper pw₁ = true → hasUpper pw₂ = true)
    (hd : hasDigit pw₁ = true → hasDigit pw₂ = true)
    (hs : hasSymbol pw₁ = true → hasSymbol pw₂ = true)
    (hrep : repeated_sequence_score pw₁ = repeated_sequence_score pw₂)
    (hkey : keyboard_pattern_score pw₁ = keyboard_pattern_score pw₂)
    (hdict : dict_hit pw₁ c = dict_hit pw₂ c) :
    (grade_password pw₁ c).score_metric ≤ (grade_password pw₂ c).score_metric := by
  rw [score_metric_eq, score_metric_eq, hlen, hrep, hkey, hdict]
  have h1 := if_one_mono hl
  have h2 := if_one_mono hu
  have h3 := if_one_mono hd
  have h4 := if_one_mono hs
  linarith

/-- C8 witness: adding an uppercase letter to "abcdefgh" (same length,
same flags) does not decrease the score. -/
theorem claim_C8_witness :
    (grade_password "abcdefgh".data none).score_metric ≤
      (grade_password "abcdefgH".data none).score_metric :=
  claim_C8_monotone "abcdefgh".data "abcdefgH".data none (by decide) (by decide)
    (by decide) (by decide) (by decide) (by decide) (by decide) (by decide)

/-- C9: grading is total — every password and every optional set produce a
report echoing the password and its length — and an absent set behaves
exactly like an empty one: the dictionary test is false for both, and the
whole report is the same. -/
theorem claim_C9_total (pw : PyStr) (c : Option (List PyStr)) :
    (grade_password pw c).password = pw ∧
    (grade_password pw c).length = pw.length ∧
    dict_hit pw none = false ∧
    dict_hit pw (some []) = false ∧
    grade_password pw none = grade_password pw (some []) :=
  ⟨rfl, rfl, rfl, rfl, rfl⟩

/-- C10: for every password and optional set, the score lies between -7 and
5 inclusive. -/
theorem claim_C10_bounds (pw : PyStr) (c : Option (List PyStr)) :
    -7 ≤ (grade_password pw c).score_metric ∧
      (grade_password pw c).score_metric ≤ 5 := by
  have h1 := repeated_le_one pw
  have h2 := keyboard_le_one pw
  rw [score_metric_eq]
  constructor <;> split_ifs <;> omega

end PasswordChecker
